import Mathlib

/-!
Verification development for the pulseGuard PPG pipeline.

Shallow embedding of `src/esp_32_code/ppg_processor.py` and
`src/esp_32_code/ppg_features.py` over exact rational arithmetic.
Python floats are modelled as `ℚ`; NumPy reductions (`mean`, `median`,
`std`, `ptp`, `percentile`) are embedded below with NumPy's exact
semantics, except that the real square root inside `np.std` is modelled
by `ratSqrt` (see its doc comment).
-/

attribute [local semireducible] Rat.add Rat.mul Rat.sub Rat.inv Rat.ofScientific

namespace PulseGuard

/-- Insert into a list sorted by the strict-total comparator `le`. -/
def insertSorted {α : Type} (le : α → α → Bool) (x : α) : List α → List α
  | [] => [x]
  | y :: t => if le x y then x :: y :: t else y :: insertSorted le x t

/-- Insertion sort. NumPy's `np.sort` returns the same value list
(sorting is value-unique over a total order), so this is a faithful
embedding of the sorting inside `np.median`, `np.percentile` and
`np.argsort`. -/
def sortBy {α : Type} (le : α → α → Bool) (l : List α) : List α :=
  l.foldr (insertSorted le) []

/-- Largest `k ≤ fuel` with `k * k ≤ n`; with `fuel = n` this is the
integer square root, written by structural recursion so that concrete
instances evaluate inside the kernel. -/
def isqrtGo (n : ℕ) : ℕ → ℕ
  | 0 => 0
  | k + 1 => if (k + 1) * (k + 1) ≤ n then k + 1 else isqrtGo n k

/-- Integer square root `⌊√n⌋`. -/
def isqrt (n : ℕ) : ℕ := isqrtGo n n

/-- Minimum of a nonempty list (0 on the empty list, which no caller hits). -/
def listMin (l : List ℚ) : ℚ :=
  match l with
  | [] => 0
  | h :: t => t.foldl min h

/-- Maximum of a nonempty list (0 on the empty list, which no caller hits). -/
def listMax (l : List ℚ) : ℚ :=
  match l with
  | [] => 0
  | h :: t => t.foldl max h

/-- Embedding of `np.ptp`: peak-to-peak range, max minus min. -/
def ptp (l : List ℚ) : ℚ := listMax l - listMin l

/-- Embedding of `np.mean` (callers guard against the empty list, where
NumPy would warn and return NaN; here `0/0 = 0`). -/
def mean (l : List ℚ) : ℚ := l.sum / l.length

/-- Population variance, the quantity under the square root in `np.std`. -/
def variance (l : List ℚ) : ℚ := (l.map (fun x => (x - mean l) ^ 2)).sum / l.length

/-- Model of the real square root used by `np.std` / `np.sqrt`.
Over `ℚ` an exact square root does not exist in general, so we use the
integer-square-root construction `Nat.sqrt (num * den) / den`, which is
exact on perfect squares (every concrete evaluation in the theorems
below is at a perfect square, in fact at 0), and is nonnegative and
monotone like the real square root — the only facts the bound proofs
use, so every claim settled below has the same truth value as with the
real square root. -/
def ratSqrt (q : ℚ) : ℚ :=
  if q ≤ 0 then 0 else (isqrt (q.num.toNat * q.den) : ℚ) / (q.den : ℚ)

/-- Embedding of `np.std` (population standard deviation). -/
def stdDev (l : List ℚ) : ℚ := ratSqrt (variance l)

/-- Embedding of `np.median`: sort ascending; middle element for odd
length, average of the two middle elements for even length. -/
def median (l : List ℚ) : ℚ :=
  let s := sortBy (fun a b : ℚ => decide (a ≤ b)) l
  let n := s.length
  if n = 0 then 0
  else if n % 2 = 1 then s.getD (n / 2) 0
  else (s.getD (n / 2 - 1) 0 + s.getD (n / 2) 0) / 2

/-- Embedding of `np.percentile(·, 95)` with NumPy's default linear
interpolation: virtual index `h = 0.95 * (n - 1)`, result
`a[⌊h⌋] + (h − ⌊h⌋) * (a[⌊h⌋+1] − a[⌊h⌋])` over the sorted data. -/
def percentile95 (l : List ℚ) : ℚ :=
  let s := sortBy (fun a b : ℚ => decide (a ≤ b)) l
  let n := s.length
  if n = 0 then 0
  else
    let h : ℚ := (19 / 20) * ((n : ℚ) - 1)
    let lo := h.floor.toNat
    let frac := h - (h.floor : ℚ)
    s.getD lo 0 + frac * (s.getD (min (lo + 1) (n - 1)) 0 - s.getD lo 0)

/-- Clamp to the unit interval, the `min(1.0, max(0.0, ·))` idiom of the source. -/
def clamp01 (x : ℚ) : ℚ := min 1 (max 0 x)

/-! ## Strain engine (`ppg_features.py`, class `StrainMonitor`) -/

/-- State of `StrainMonitor`. The four deques have `maxlen=600`
(see `pushWindow`); `hr_baseline` / `hrv_baseline` are `None` in Python
until the baseline freezes and are only ever read after
`baseline_computed` is set, so they are modelled as plain rationals
initialised to 0; `baseline_start_time`'s `None` is semantically load
bearing and kept as `Option`. -/
structure StrainMonitor where
  window_sec : ℚ
  baseline_sec : ℚ
  hr_window : List ℚ
  hrv_window : List ℚ
  ibi_window : List ℚ
  time_window : List ℚ
  hr_baseline : ℚ
  hrv_baseline : ℚ
  baseline_computed : Bool
  baseline_start_time : Option ℚ
deriving Repr, DecidableEq

/-- Append to a `deque(maxlen=600)`: the oldest element is evicted once
the deque is full. -/
def pushWindow (l : List ℚ) (x : ℚ) : List ℚ :=
  let l2 := l ++ [x]
  l2.drop (l2.length - 600)

/-- Embedding of `StrainMonitor.__init__(window_sec=60, baseline_sec=30)`. -/
def StrainMonitor.init (window_sec : ℚ := 60) (baseline_sec : ℚ := 30) : StrainMonitor :=
  { window_sec := window_sec
    baseline_sec := baseline_sec
    hr_window := []
    hrv_window := []
    ibi_window := []
    time_window := []
    hr_baseline := 0
    hrv_baseline := 0
    baseline_computed := false
    baseline_start_time := none }

/-- Embedding of `StrainMonitor.add_sample`: the sample is appended to
all four windows only when `hr > 0`, and the first accepted timestamp
becomes `baseline_start_time`. -/
def StrainMonitor.add_sample (s : StrainMonitor) (timestamp hr hrv ibi : ℚ) : StrainMonitor :=
  if 0 < hr then
    { s with
      hr_window := pushWindow s.hr_window hr
      hrv_window := pushWindow s.hrv_window hrv
      ibi_window := pushWindow s.ibi_window ibi
      time_window := pushWindow s.time_window timestamp
      baseline_start_time :=
        match s.baseline_start_time with
        | none => some timestamp
        | some t => some t }
  else s

/-- Embedding of `StrainMonitor.compute_baseline`. -/
def StrainMonitor.compute_baseline (s : StrainMonitor) : StrainMonitor :=
  if s.baseline_computed then s
  else
    match s.baseline_start_time with
    | none => s
    | some t0 =>
      if s.time_window = [] then s
      else
        let duration := s.time_window.getLast?.getD 0 - t0
        if s.baseline_sec ≤ duration then
          let hrs := s.hr_window.filter (fun h => decide (30 < h))
          let hrvs := s.hrv_window.filter (fun h => decide (5 < h))
          if 5 ≤ hrs.length ∧ 3 ≤ hrvs.length then
            { s with
              hr_baseline := median hrs
              hrv_baseline := median hrvs
              baseline_computed := true }
          else s
        else s

/-- Index of the first retained sample of the trailing window: 0 unless
the window spans more than `window_sec`, in which case the first index
whose timestamp is at or after `last − window_sec` (0 when none is,
matching `next(..., 0)`). -/
def StrainMonitor.keepIdx (s : StrainMonitor) : ℕ :=
  let duration :=
    if 1 < s.time_window.length then s.time_window.getLast?.getD 0 - s.time_window.head?.getD 0
    else 0
  if s.window_sec < duration then
    let cutoff := s.time_window.getLast?.getD 0 - s.window_sec
    (s.time_window.findIdx? (fun t => decide (cutoff ≤ t))).getD 0
  else 0

/-- HR samples of the trailing window (`hrs` in `get_features`). -/
def StrainMonitor.windowHrs (s : StrainMonitor) : List ℚ := s.hr_window.drop s.keepIdx

/-- HRV samples of the trailing window (`hrvs` in `get_features`). -/
def StrainMonitor.windowHrvs (s : StrainMonitor) : List ℚ := s.hrv_window.drop s.keepIdx

/-- IBI samples of the trailing window (`ibis` in `get_features`). -/
def StrainMonitor.windowIbis (s : StrainMonitor) : List ℚ := s.ibi_window.drop s.keepIdx

/-- The `hr_mean` computed by `get_features`. -/
def StrainMonitor.hrMean (s : StrainMonitor) : ℚ :=
  if s.windowHrs = [] then 0 else mean s.windowHrs

/-- The `hrv_mean` computed by `get_features`: mean of window HRV values
above 5 ms, 0 when none qualify. -/
def StrainMonitor.hrvMean (s : StrainMonitor) : ℚ :=
  let hrvs_valid := s.windowHrvs.filter (fun h => decide (5 < h))
  if hrvs_valid = [] then 0 else mean hrvs_valid

/-- The `hrv_drop` computed by `get_features`. -/
def StrainMonitor.hrvDrop (s : StrainMonitor) : ℚ :=
  if s.baseline_computed ∧ 0 < s.hrv_baseline ∧ 0 < s.hrvMean then
    max 0 ((s.hrv_baseline - s.hrvMean) / s.hrv_baseline)
  else 0

/-- The `irregularity` computed by `get_features`: capped coefficient of
variation of the strictly in-range IBIs of the trailing window. -/
def StrainMonitor.irregularity (s : StrainMonitor) : ℚ :=
  let ibis_valid := s.windowIbis.filter (fun i => decide (400 < i ∧ i < 1500))
  if 2 ≤ ibis_valid.length then
    let cv := if 0 < mean ibis_valid then stdDev ibis_valid / mean ibis_valid else 0
    min 1 (cv / (3 / 20))
  else 0

/-- The `strain_index` computed by `get_features`. -/
def StrainMonitor.strainIndex (s : StrainMonitor) : ℚ :=
  if s.baseline_computed ∧ 0 < s.hr_baseline then
    let hr_norm := min 1 (max 0 ((s.hrMean - s.hr_baseline) / 30))
    min 1 (max 0 (hr_norm * (2 / 5) + s.hrvDrop * (2 / 5) + s.irregularity * (1 / 5)))
  else if 30 < s.hrMean then
    let hr_simple := min 1 (max 0 ((s.hrMean - 60) / 50))
    let hrv_simple := if s.hrvMean < 10 then 0 else 1 - min 1 (s.hrvMean / 80)
    min 1 (max 0 (hr_simple * (1 / 2) + hrv_simple * (3 / 10) + s.irregularity * (1 / 5)))
  else 0

/-- The record returned by `StrainMonitor.get_features`. -/
structure Features where
  hr_mean : ℚ
  hrv_mean : ℚ
  hrv_drop : ℚ
  irregularity : ℚ
  strain_index : ℚ
  baseline_ready : Bool
deriving Repr, DecidableEq

/-- Features computed from a given state (the body of `get_features`
after the baseline attempt): all-zero with `baseline_ready=false` when
fewer than 3 HR samples are stored, otherwise the trailing-window
features. -/
def StrainMonitor.featuresOf (s : StrainMonitor) : Features :=
  if s.hr_window.length < 3 then
    { hr_mean := 0, hrv_mean := 0, hrv_drop := 0, irregularity := 0
      strain_index := 0, baseline_ready := false }
  else
    { hr_mean := s.hrMean
      hrv_mean := s.hrvMean
      hrv_drop := s.hrvDrop
      irregularity := s.irregularity
      strain_index := s.strainIndex
      baseline_ready := s.baseline_computed }

/-- Embedding of `StrainMonitor.get_features`: first tries
`compute_baseline` when the baseline is not yet frozen (the only state
mutation), then returns the feature record together with the resulting
state. -/
def StrainMonitor.get_features (s : StrainMonitor) : Features × StrainMonitor :=
  let s2 := if s.baseline_computed then s else s.compute_baseline
  (s2.featuresOf, s2)

/-- The three public operations of the engine. -/
inductive Op where
  | add (timestamp hr hrv ibi : ℚ)
  | computeBaseline
  | getFeatures
deriving Repr

/-- One engine operation applied to a state. -/
def stepOp (s : StrainMonitor) : Op → StrainMonitor
  | Op.add t hr hrv ibi => s.add_sample t hr hrv ibi
  | Op.computeBaseline => s.compute_baseline
  | Op.getFeatures => (s.get_features).2

/-- States reachable from a fresh `StrainMonitor` by the public operations. -/
inductive Reachable : StrainMonitor → Prop
  | init (w b : ℚ) : Reachable (StrainMonitor.init w b)
  | step {s : StrainMonitor} (op : Op) : Reachable s → Reachable (stepOp s op)

/-! ## Signal pipeline (`ppg_processor.py`) -/

/-- The `valid` list of `filter_valid_ibi`: intervals in the inclusive
physiological range `[IBI_MIN_MS, IBI_MAX_MS] = [400, 1500]` ms. -/
def rangeValidIbi (ibi_ms : List ℚ) : List ℚ :=
  ibi_ms.filter (fun x => decide (400 ≤ x ∧ x ≤ 1500))

/-- The beat-to-beat outlier rejection of `filter_valid_ibi`: starting
from index 1, drop `valid[i]` whenever `|valid[i] − valid[i−1]| > 300`
(the comparison is against the previous element of `valid`, kept or not,
exactly as in the Python loop). -/
def rejectJumps (l : List ℚ) : List ℚ :=
  match l with
  | [] => []
  | h :: t =>
    h :: ((t.zip l).filter (fun p => decide (|p.1 - p.2| ≤ 300))).map (fun p => p.1)

/-- Embedding of `filter_valid_ibi`. -/
def filter_valid_ibi (ibi_ms : List ℚ) : List ℚ :=
  let valid := rangeValidIbi ibi_ms
  if valid.length < 3 then valid else rejectJumps valid

/-- Embedding of `compute_hr`: `60000 / median(valid)` BPM, 0 without data. -/
def compute_hr (ibi_ms : List ℚ) : ℚ :=
  let valid := filter_valid_ibi ibi_ms
  if valid.length < 1 then 0 else 60000 / median valid

/-- Embedding of `compute_hrv_rmssd` (root mean square of successive
differences of the valid IBIs). -/
def compute_hrv_rmssd (ibi_ms : List ℚ) : ℚ :=
  let valid := filter_valid_ibi ibi_ms
  if valid.length < 2 then 0
  else ratSqrt (mean (((valid.tail).zip valid).map (fun p => (p.1 - p.2) ^ 2)))

/-- Embedding of `compute_hrv_sdnn` (`np.std` of the valid IBIs). -/
def compute_hrv_sdnn (ibi_ms : List ℚ) : ℚ :=
  let valid := filter_valid_ibi ibi_ms
  if valid.length < 2 then 0 else stdDev valid

/-- Embedding of `peaks_to_ibi`: adjacent peak-index differences scaled
by `1000/fs` ms. -/
def peaks_to_ibi (peak_indices : List ℕ) (fs : ℚ) : List ℚ :=
  if peak_indices.length < 2 then []
  else ((peak_indices.tail).zip peak_indices).map
    (fun p => ((p.1 : ℚ) - (p.2 : ℚ)) * (1000 / fs))

/-- Absolute first differences of the signal (`np.abs(np.diff(sig))`). -/
def gradOf (sig : List ℚ) : List ℚ :=
  ((sig.tail).zip sig).map (fun p => |p.1 - p.2|)

/-- Gradient-jump threshold of `mask_artifacts`:
`max(1000, 3 × 95th percentile of the absolute differences)`. -/
def gradThresh (sig : List ℚ) : ℚ := max 1000 (percentile95 (gradOf sig) * 3)

/-- Radius of the window masked around a gradient artifact. -/
def gradMaskRadius (n : ℕ) : ℕ := max 5 (n / 50)

/-- Set `mask[lo:hi] = False`. -/
def maskRange (m : List Bool) (lo hi : ℕ) : List Bool :=
  m.mapIdx (fun i b => if lo ≤ i ∧ i < hi then false else b)

/-- Flatness-check window size `min(50, len/4)` of `mask_artifacts`. -/
def flatWin (n : ℕ) : ℕ := min 50 (n / 4)

/-- Flatness threshold `max(1000, 0.005 × median)` of `mask_artifacts`. -/
def flatThresh (sig : List ℚ) : ℚ := max 1000 (median sig * (5 / 1000))

/-- Embedding of Python `range(0, stop, step)` for `step > 0`. -/
def pyRange (stop step : ℕ) : List ℕ :=
  (List.range ((stop + step - 1) / step)).map (fun k => k * step)

/-- Start indices of the sliding flatness windows:
`range(0, len(sig) − win, win // 2)`. -/
def flatPositions (sig : List ℚ) : List ℕ :=
  pyRange (sig.length - flatWin sig.length) (flatWin sig.length / 2)

/-- Embedding of `mask_artifacts` (its `grad_thresh_ratio` parameter is
unused in the source body and therefore omitted): all-true for < 10
samples; otherwise union of the gradient-jump, flatness and global
low-signal artifact checks. -/
def mask_artifacts (sig : List ℚ) : List Bool :=
  if sig.length < 10 then List.replicate sig.length true
  else
    let n := sig.length
    let grad := gradOf sig
    let bad := (List.range grad.length).filter (fun i => decide (gradThresh sig < grad.getD i 0))
    let w := gradMaskRadius n
    let mask1 := bad.foldl (fun m i => maskRange m (i - w) (min n (i + w + 1)))
      (List.replicate n true)
    let win := flatWin n
    let mask2 :=
      if 10 ≤ win then
        (flatPositions sig).foldl
          (fun m i =>
            if ptp ((sig.drop i).take win) < flatThresh sig then maskRange m i (i + win) else m)
          mask1
      else mask1
    if median sig < 10000 then List.replicate n false else mask2

/-- Embedding of `extract_best_segment`: longest contiguous good run of
at least `min_len` samples, ties broken toward the latest run; the empty
result is `([], 0)`. -/
def extract_best_segment (sig : List ℚ) (mask : List Bool) (min_len : ℕ) : List ℚ × ℕ :=
  if mask.count true < min_len then ([], 0)
  else
    let padded : List ℤ := 0 :: (mask.map (fun b => if b then (1 : ℤ) else 0)) ++ [0]
    let diffs := ((padded.tail).zip padded).map (fun p => p.1 - p.2)
    let starts := (List.range diffs.length).filter (fun i => decide (diffs.getD i 0 = 1))
    let ends := (List.range diffs.length).filter (fun i => decide (diffs.getD i 0 = -1))
    let best := (starts.zip ends).foldl
      (fun (acc : ℕ × ℕ) (p : ℕ × ℕ) =>
        if (min_len : ℤ) ≤ (p.2 : ℤ) - (p.1 : ℤ) ∧
            (acc.2 : ℤ) - (acc.1 : ℤ) < (p.2 : ℤ) - (p.1 : ℤ) then p
        else if (min_len : ℤ) ≤ (p.2 : ℤ) - (p.1 : ℤ) ∧
            (p.2 : ℤ) - (p.1 : ℤ) = (acc.2 : ℤ) - (acc.1 : ℤ) ∧ acc.2 < p.2 then p
        else acc)
      (0, 0)
    if (min_len : ℤ) ≤ (best.2 : ℤ) - (best.1 : ℤ) then
      (((sig.drop best.1).take (best.2 - best.1)), best.1)
    else ([], 0)

/-- Running EMA baseline `b[i] = 0.02·x[i] + 0.98·b[i−1]` continued from `prev`. -/
def emaFrom (prev : ℚ) : List ℚ → List ℚ
  | [] => []
  | x :: t =>
    let b := (1 / 50) * x + (49 / 50) * prev
    b :: emaFrom b t

/-- Embedding of `remove_dc` in its default `"ema"` mode (the only mode
the pipeline uses): subtract the running EMA baseline seeded with
`b[0] = x[0]`. -/
def remove_dc (sig : List ℚ) : List ℚ :=
  match sig with
  | [] => []
  | x :: t => List.zipWith (fun a b => a - b) (x :: t) (x :: emaFrom x t)

/-- The `padlen` passed to `filtfilt` by `bandpass_filter`:
`max(1, min(3 × max(len(a), len(b)), len(x) − 2))`, where a 4th-order
Butterworth band-pass has 9 numerator and 9 denominator taps, so
`3 × max(len(a), len(b)) = 27`. -/
def bandpassPadlen (n : ℕ) : ℤ := max 1 (min 27 ((n : ℤ) - 2))

/-- Embedding of `bandpass_filter`, parametric in the numeric behaviour
`filt` of SciPy's Butterworth `filtfilt` (external library code): the
call raises `ValueError` — modelled as `none` — exactly when the signal
length is not greater than the computed `padlen`. -/
def bandpass_filter (filt : List ℚ → List ℚ) (sig : List ℚ) : Option (List ℚ) :=
  if (sig.length : ℤ) ≤ bandpassPadlen sig.length then none else some (filt sig)

/-! ### Peak detection (`detect_peaks`, via `scipy.signal.find_peaks`) -/

/-- Plateau scan of SciPy's local-maxima search: starting at `j`,
advance while the value equals `v` and the index is below `iMax`. -/
def scanAhead (x : List ℚ) (iMax : ℕ) (v : ℚ) : ℕ → ℕ → ℕ
  | 0, j => j
  | fuel + 1, j =>
    if j < iMax ∧ x.getD j 0 = v then scanAhead x iMax v fuel (j + 1) else j

/-- Main loop of SciPy's `_local_maxima_1d`: a strict rise followed by a
strict fall (possibly across a plateau) yields the plateau midpoint.
The fuel is the list length, which the loop (advancing `i` by at least
one each step inside `i < iMax`) never exhausts. -/
def localMaxGo (x : List ℚ) (iMax : ℕ) : ℕ → ℕ → List ℕ
  | 0, _ => []
  | fuel + 1, i =>
    if i < iMax then
      if x.getD (i - 1) 0 < x.getD i 0 then
        if x.getD (scanAhead x iMax (x.getD i 0) x.length (i + 1)) 0 < x.getD i 0 then
          (i + (scanAhead x iMax (x.getD i 0) x.length (i + 1) - 1)) / 2 ::
            localMaxGo x iMax fuel (scanAhead x iMax (x.getD i 0) x.length (i + 1) + 1)
        else localMaxGo x iMax fuel (i + 1)
      else localMaxGo x iMax fuel (i + 1)
    else []

/-- All interior local maxima of the signal, as in SciPy. -/
def localMaxima (x : List ℚ) : List ℕ := localMaxGo x (x.length - 1) x.length 1

/-- SciPy `_peak_prominences` with unrestricted window: scan from the
peak in each direction while values stay at or below the peak, and
subtract the higher of the two scan minima from the peak height. -/
def prominence (x : List ℚ) (p : ℕ) : ℚ :=
  let v := x.getD p 0
  let leftScan := ((x.take (p + 1)).reverse).takeWhile (fun y => decide (y ≤ v))
  let rightScan := (x.drop p).takeWhile (fun y => decide (y ≤ v))
  v - max (listMin leftScan) (listMin rightScan)

/-- Distance-selection sweep of SciPy `_select_by_peak_distance`: visit
candidates in order of decreasing priority; a still-surviving candidate
removes every other survivor strictly closer than `dist`. -/
def sdGo (dist : ℕ) : List ℕ → List ℕ → List ℕ
  | [], keep => keep
  | p :: rest, keep =>
    if p ∈ keep then
      sdGo dist rest (keep.filter (fun q => decide (q = p ∨ dist ≤ ((q : ℤ) - p).natAbs)))
    else sdGo dist rest keep

/-- SciPy `_select_by_peak_distance` with priority = peak height. -/
def selectByDistance (x : List ℚ) (peaks : List ℕ) (dist : ℕ) : List ℕ :=
  let order := sortBy (fun a b =>
    decide (x.getD a 0 < x.getD b 0 ∨ (x.getD a 0 = x.getD b 0 ∧ a ≤ b))) peaks
  sdGo dist order.reverse peaks

/-- SciPy `find_peaks` restricted to the conditions `detect_peaks`
passes: height filter, then distance selection, then prominence filter
(SciPy evaluates them in exactly this order). -/
def find_peaks (x : List ℚ) (dist : ℕ) (promMin heightMin : ℚ) : List ℕ :=
  let peaks0 := localMaxima x
  let peaks1 := peaks0.filter (fun p => decide (heightMin ≤ x.getD p 0))
  let peaks2 := selectByDistance x peaks1 dist
  peaks2.filter (fun p => decide (promMin ≤ prominence x p))

/-- Minimum inter-peak distance of `detect_peaks` when called without an
explicit one: `max(1, int(0.4 * fs))` samples. -/
def minDistOf (fs : ℚ) : ℕ := max 1 ((2 / 5 * fs).floor.toNat)

/-- Embedding of `detect_peaks` (default `min_distance_samples=None`,
`prominence_ratio=0.05`): empty for fewer than 10 samples or a
near-zero dynamic range, otherwise `find_peaks` with the relaxed PPG
thresholds. -/
def detect_peaks (sig : List ℚ) (fs : ℚ) : List ℕ :=
  if sig.length < 10 then []
  else
    let minDist := minDistOf fs
    let r := ptp sig
    if r < 1 / 1000000 then []
    else
      let prom := max (r * (1 / 20)) 1
      let h := median sig + (1 / 20) * r
      find_peaks sig minDist prom h

/-- The dict returned by `process_ppg_pipeline`. -/
structure Snapshot where
  peaks : List ℕ
  ibi_ms : List ℚ
  hr : ℚ
  hrv_rmssd : ℚ
  hrv_sdnn : ℚ
  filtered_signal : List ℚ
  quality : ℚ
deriving Repr, DecidableEq

/-- The zero snapshot returned for signals shorter than 30 samples. -/
def zeroSnapshot (n : ℕ) : Snapshot :=
  { peaks := [], ibi_ms := [], hr := 0, hrv_rmssd := 0, hrv_sdnn := 0
    filtered_signal := List.replicate n 0, quality := 0 }

/-- Embedding of `process_ppg_pipeline`, parametric in the Butterworth
`filtfilt` numerics `filt` (which preserve length, so for signals of
30 or more samples `bandpass_filter` is `some` — see
`bandpass_filter_isSome_of_two_le` — and masking is disabled in the
source, `segment = signal`, `seg_start = 0`). -/
def process_ppg_pipeline (filt : List ℚ → List ℚ) (sig : List ℚ) (fs : ℚ) : Snapshot :=
  if sig.length < 30 then zeroSnapshot sig.length
  else
    let dc := remove_dc sig
    let filtered := (bandpass_filter filt dc).getD []
    let peaks := detect_peaks filtered fs
    let ibi := peaks_to_ibi peaks fs
    let validIbi := filter_valid_ibi ibi
    let quality : ℚ := if 2 ≤ validIbi.length then min 100 ((validIbi.length : ℚ) * 15) else 0
    let filtPadded := (filtered.take sig.length) ++
      List.replicate (sig.length - filtered.length) 0
    { peaks := peaks
      ibi_ms := ibi
      hr := compute_hr ibi
      hrv_rmssd := compute_hrv_rmssd ibi
      hrv_sdnn := compute_hrv_sdnn ibi
      filtered_signal := filtPadded
      quality := quality }

/-! ## Helper lemmas -/

theorem ratSqrt_nonneg (q : ℚ) : 0 ≤ ratSqrt q := by
  unfold ratSqrt
  split
  · exact le_refl 0
  · exact div_nonneg (by positivity) (by positivity)

theorem stdDev_nonneg (l : List ℚ) : 0 ≤ stdDev l := ratSqrt_nonneg _

theorem clamp01_nonneg (x : ℚ) : 0 ≤ min 1 (max 0 x) :=
  le_min zero_le_one (le_max_left 0 x)

theorem clamp01_le_one (x : ℚ) : min 1 (max 0 x) ≤ 1 := min_le_left 1 _

theorem irregularity_nonneg (s : StrainMonitor) : 0 ≤ s.irregularity := by
  unfold StrainMonitor.irregularity
  dsimp only
  split
  · refine le_min zero_le_one (div_nonneg ?_ (by norm_num))
    split
    · exact div_nonneg (stdDev_nonneg _) (le_of_lt (by assumption))
    · exact le_refl 0
  · exact le_refl 0

theorem irregularity_le_one (s : StrainMonitor) : s.irregularity ≤ 1 := by
  unfold StrainMonitor.irregularity
  dsimp only
  split
  · exact min_le_left 1 _
  · exact zero_le_one

theorem hrvDrop_nonneg (s : StrainMonitor) : 0 ≤ s.hrvDrop := by
  unfold StrainMonitor.hrvDrop
  split
  · exact le_max_left 0 _
  · exact le_refl 0

theorem hrvDrop_le_one (s : StrainMonitor) : s.hrvDrop ≤ 1 := by
  unfold StrainMonitor.hrvDrop
  split
  · next h =>
    refine max_le zero_le_one ?_
    rw [div_le_one h.2.1]
    linarith [h.2.2]
  · exact zero_le_one

theorem strainIndex_nonneg (s : StrainMonitor) : 0 ≤ s.strainIndex := by
  unfold StrainMonitor.strainIndex
  split
  · exact clamp01_nonneg _
  · split
    · exact clamp01_nonneg _
    · exact le_refl 0

theorem strainIndex_le_one (s : StrainMonitor) : s.strainIndex ≤ 1 := by
  unfold StrainMonitor.strainIndex
  split
  · exact clamp01_le_one _
  · split
    · exact clamp01_le_one _
    · exact zero_le_one

theorem add_sample_keeps_baseline (s : StrainMonitor) (t hr hrv ibi : ℚ) :
    (s.add_sample t hr hrv ibi).hr_baseline = s.hr_baseline ∧
    (s.add_sample t hr hrv ibi).hrv_baseline = s.hrv_baseline ∧
    (s.add_sample t hr hrv ibi).baseline_computed = s.baseline_computed := by
  unfold StrainMonitor.add_sample
  split <;> exact ⟨rfl, rfl, rfl⟩

theorem compute_baseline_frozen (s : StrainMonitor) (h : s.baseline_computed = true) :
    s.compute_baseline = s := by
  unfold StrainMonitor.compute_baseline
  rw [h]
  simp

theorem get_features_snd_frozen (s : StrainMonitor) (h : s.baseline_computed = true) :
    (s.get_features).2 = s := by
  unfold StrainMonitor.get_features
  rw [h]
  simp

theorem stepOp_keeps_frozen_baseline (s : StrainMonitor) (op : Op)
    (h : s.baseline_computed = true) :
    (stepOp s op).hr_baseline = s.hr_baseline ∧
    (stepOp s op).hrv_baseline = s.hrv_baseline ∧
    (stepOp s op).baseline_computed = true := by
  cases op with
  | add t hr hrv ibi =>
    have := add_sample_keeps_baseline s t hr hrv ibi
    exact ⟨this.1, this.2.1, this.2.2 ▸ h⟩
  | computeBaseline => rw [stepOp, compute_baseline_frozen s h]; exact ⟨rfl, rfl, h⟩
  | getFeatures => rw [stepOp, get_features_snd_frozen s h]; exact ⟨rfl, rfl, h⟩

theorem foldl_keeps_frozen_baseline (ops : List Op) :
    ∀ s : StrainMonitor, s.baseline_computed = true →
      (ops.foldl stepOp s).hr_baseline = s.hr_baseline ∧
      (ops.foldl stepOp s).hrv_baseline = s.hrv_baseline ∧
      (ops.foldl stepOp s).baseline_computed = true := by
  induction ops with
  | nil => intro s h; exact ⟨rfl, rfl, h⟩
  | cons op rest ih =>
    intro s h
    have h1 := stepOp_keeps_frozen_baseline s op h
    have h2 := ih (stepOp s op) h1.2.2
    exact ⟨h2.1.trans h1.1, h2.2.1.trans h1.2.1, h2.2.2⟩

theorem compute_baseline_keeps_windows (s : StrainMonitor) :
    (s.compute_baseline).hr_window = s.hr_window ∧
    (s.compute_baseline).hrv_window = s.hrv_window ∧
    (s.compute_baseline).ibi_window = s.ibi_window ∧
    (s.compute_baseline).time_window = s.time_window := by
  unfold StrainMonitor.compute_baseline
  dsimp only
  split
  · exact ⟨rfl, rfl, rfl, rfl⟩
  · split
    · exact ⟨rfl, rfl, rfl, rfl⟩
    · split
      · exact ⟨rfl, rfl, rfl, rfl⟩
      · split
        · split
          · exact ⟨rfl, rfl, rfl, rfl⟩
          · exact ⟨rfl, rfl, rfl, rfl⟩
        · exact ⟨rfl, rfl, rfl, rfl⟩

theorem mem_pushWindow {l : List ℚ} {x y : ℚ} (h : y ∈ pushWindow l x) :
    y ∈ l ∨ y = x := by
  unfold pushWindow at h
  have h2 : y ∈ l ++ [x] := List.drop_subset _ _ h
  rcases List.mem_append.1 h2 with h3 | h3
  · exact Or.inl h3
  · exact Or.inr (List.mem_singleton.1 h3)

theorem reachable_hr_window_pos {s : StrainMonitor} (h : Reachable s) :
    ∀ x ∈ s.hr_window, 0 < x := by
  induction h with
  | init w b => intro x hx; simp [StrainMonitor.init] at hx
  | step op hr ih =>
    rename_i s0
    intro x hx
    cases op with
    | add t hr hrv ibi =>
      rw [stepOp, StrainMonitor.add_sample] at hx
      split at hx
      · next hpos =>
        simp only at hx
        rcases mem_pushWindow hx with h1 | h1
        · exact ih x h1
        · exact h1 ▸ hpos
      · exact ih x hx
    | computeBaseline =>
      rw [stepOp] at hx
      rw [(compute_baseline_keeps_windows s0).1] at hx
      exact ih x hx
    | getFeatures =>
      rw [stepOp, StrainMonitor.get_features] at hx
      simp only at hx
      split at hx
      · exact ih x hx
      · rw [(compute_baseline_keeps_windows s0).1] at hx
        exact ih x hx

/-! ## Claim theorems: strain engine -/

/-- Concrete frozen-baseline state used by the witnesses: baseline
`hr=70, hrv=50`, trailing window at HR 100 BPM, HRV 20 ms, steady IBIs. -/
def sFrozen : StrainMonitor :=
  { window_sec := 60, baseline_sec := 30
    hr_window := [100, 100, 100], hrv_window := [20, 20, 20]
    ibi_window := [600, 600, 600], time_window := [0, 1, 2]
    hr_baseline := 70, hrv_baseline := 50
    baseline_computed := true, baseline_start_time := some 0 }

/-- C1: with the baseline frozen at `hr_baseline = 70`, `hrv_baseline = 50`
and a trailing window yielding `hr_mean = 100`, `hrv_mean = 20`,
`get_features` reports `hrv_drop = 0.6` and a strain index equal to
`clamp01(0.4·clamp01((hr_mean−hr_baseline)/30) + 0.4·hrv_drop +
0.2·irregularity)`, which is at least 0.64 whatever the irregularity term. -/
theorem strain_features_frozen_baseline (s : StrainMonitor)
    (hb : s.baseline_computed = true) (hb1 : s.hr_baseline = 70)
    (hb2 : s.hrv_baseline = 50) (hm : s.hrMean = 100) (hv : s.hrvMean = 20)
    (hn : 3 ≤ s.hr_window.length) :
    (s.get_features).1.hrv_drop = 3 / 5 ∧
    (s.get_features).1.strain_index =
      clamp01 ((2 / 5) * clamp01 (((s.get_features).1.hr_mean - 70) / 30) +
        (2 / 5) * (s.get_features).1.hrv_drop + (1 / 5) * (s.get_features).1.irregularity) ∧
    16 / 25 ≤ (s.get_features).1.strain_index := by
  have hfe : (s.get_features).1 = s.featuresOf := by
    simp [StrainMonitor.get_features, hb]
  have hlen : ¬ s.hr_window.length < 3 := not_lt.2 hn
  have hdrop : s.hrvDrop = 3 / 5 := by
    unfold StrainMonitor.hrvDrop
    rw [hb, hb2, hv]
    norm_num
  have hirr0 : 0 ≤ s.irregularity := irregularity_nonneg s
  have hstrain : s.strainIndex = clamp01 (16 / 25 + (1 / 5) * s.irregularity) := by
    unfold StrainMonitor.strainIndex
    rw [hb, hb1, hm, hdrop]
    dsimp only
    rw [if_pos ⟨rfl, by norm_num⟩]
    unfold clamp01
    have h1 : ((1 : ℚ) ⊓ (0 ⊔ (100 - 70) / 30)) = 1 := by norm_num
    rw [h1]
    ring_nf
  refine ⟨?_, ?_, ?_⟩
  · rw [hfe]
    unfold StrainMonitor.featuresOf
    rw [if_neg hlen]
    exact hdrop
  · rw [hfe]
    unfold StrainMonitor.featuresOf
    rw [if_neg hlen]
    dsimp only
    rw [hstrain, hm, hdrop]
    have h1 : clamp01 (((100 : ℚ) - 70) / 30) = 1 := by unfold clamp01; norm_num
    rw [h1]
    unfold clamp01
    ring_nf
  · rw [hfe]
    unfold StrainMonitor.featuresOf
    rw [if_neg hlen]
    dsimp only
    rw [hstrain]
    unfold clamp01
    refine le_min (by norm_num) (le_max_of_le_right ?_)
    linarith

/-- Witness for C1 at the concrete state `sFrozen`. -/
theorem strain_features_frozen_baseline_witness :
    sFrozen.baseline_computed = true ∧ sFrozen.hrMean = 100 ∧ sFrozen.hrvMean = 20 ∧
    ((sFrozen.get_features).1.hrv_drop = 3 / 5 ∧
     (sFrozen.get_features).1.strain_index =
       clamp01 ((2 / 5) * clamp01 (((sFrozen.get_features).1.hr_mean - 70) / 30) +
         (2 / 5) * (sFrozen.get_features).1.hrv_drop +
         (1 / 5) * (sFrozen.get_features).1.irregularity) ∧
     16 / 25 ≤ (sFrozen.get_features).1.strain_index) :=
  ⟨rfl, by decide, by decide,
    strain_features_frozen_baseline sFrozen rfl (by decide) (by decide) (by decide)
      (by decide) (by decide)⟩

/-- C2: once `baseline_computed` is set, no sequence of `add_sample`,
`get_features` or `compute_baseline` calls changes `hr_baseline` or
`hrv_baseline` again. -/
theorem frozen_baseline_immutable (s : StrainMonitor) (ops : List Op)
    (h : s.baseline_computed = true) :
    (ops.foldl stepOp s).hr_baseline = s.hr_baseline ∧
    (ops.foldl stepOp s).hrv_baseline = s.hrv_baseline := by
  have := foldl_keeps_frozen_baseline ops s h
  exact ⟨this.1, this.2.1⟩

/-- Witness for C2: a concrete operation sequence on `sFrozen`. -/
theorem frozen_baseline_immutable_witness :
    sFrozen.baseline_computed = true ∧
    (([Op.add 3 105 18 650, Op.computeBaseline, Op.getFeatures].foldl
        stepOp sFrozen).hr_baseline = sFrozen.hr_baseline ∧
     ([Op.add 3 105 18 650, Op.computeBaseline, Op.getFeatures].foldl
        stepOp sFrozen).hrv_baseline = sFrozen.hrv_baseline) :=
  ⟨rfl, frozen_baseline_immutable sFrozen
    [Op.add 3 105 18 650, Op.computeBaseline, Op.getFeatures] rfl⟩

/-- C3: on every reachable engine state the reported `strain_index`,
`hrv_drop` and `irregularity` all lie in `[0, 1]`. -/
theorem strain_features_in_unit_interval (s : StrainMonitor) (h : Reachable s) :
    (0 ≤ (s.get_features).1.strain_index ∧ (s.get_features).1.strain_index ≤ 1) ∧
    (0 ≤ (s.get_features).1.hrv_drop ∧ (s.get_features).1.hrv_drop ≤ 1) ∧
    (0 ≤ (s.get_features).1.irregularity ∧ (s.get_features).1.irregularity ≤ 1) := by
  clear h
  have key : ∀ s2 : StrainMonitor,
      (0 ≤ s2.featuresOf.strain_index ∧ s2.featuresOf.strain_index ≤ 1) ∧
      (0 ≤ s2.featuresOf.hrv_drop ∧ s2.featuresOf.hrv_drop ≤ 1) ∧
      (0 ≤ s2.featuresOf.irregularity ∧ s2.featuresOf.irregularity ≤ 1) := by
    intro s2
    unfold StrainMonitor.featuresOf
    split
    · exact ⟨⟨le_refl 0, zero_le_one⟩, ⟨le_refl 0, zero_le_one⟩, ⟨le_refl 0, zero_le_one⟩⟩
    · exact ⟨⟨strainIndex_nonneg s2, strainIndex_le_one s2⟩,
        ⟨hrvDrop_nonneg s2, hrvDrop_le_one s2⟩,
        ⟨irregularity_nonneg s2, irregularity_le_one s2⟩⟩
  unfold StrainMonitor.get_features
  dsimp only
  exact key _

/-- Witness for C3 at the freshly constructed engine. -/
theorem strain_features_in_unit_interval_witness :
    (0 ≤ ((StrainMonitor.init 60 30).get_features).1.strain_index ∧
      ((StrainMonitor.init 60 30).get_features).1.strain_index ≤ 1) ∧
    (0 ≤ ((StrainMonitor.init 60 30).get_features).1.hrv_drop ∧
      ((StrainMonitor.init 60 30).get_features).1.hrv_drop ≤ 1) ∧
    (0 ≤ ((StrainMonitor.init 60 30).get_features).1.irregularity ∧
      ((StrainMonitor.init 60 30).get_features).1.irregularity ≤ 1) :=
  strain_features_in_unit_interval _ (Reachable.init 60 30)

/-- C9: with a frozen baseline, `get_features` leaves the engine state
unchanged, so a second call with no intervening `add_sample` returns the
identical feature record. -/
theorem get_features_idempotent_frozen (s : StrainMonitor)
    (h : s.baseline_computed = true) :
    (s.get_features).2 = s ∧ ((s.get_features).2).get_features = s.get_features := by
  have h2 := get_features_snd_frozen s h
  exact ⟨h2, by rw [h2]⟩

/-- Witness for C9 at `sFrozen`. -/
theorem get_features_idempotent_frozen_witness :
    sFrozen.baseline_computed = true ∧
    ((sFrozen.get_features).2 = sFrozen ∧
     ((sFrozen.get_features).2).get_features = sFrozen.get_features) :=
  ⟨rfl, get_features_idempotent_frozen sFrozen rfl⟩

/-- C10: `add_sample` with `hr ≤ 0` leaves the whole engine state
unchanged, and consequently every HR value stored in the rolling window
of a reachable state is strictly positive. -/
theorem add_sample_nonpositive_hr_dropped :
    (∀ (s : StrainMonitor) (t hr hrv ibi : ℚ), hr ≤ 0 → s.add_sample t hr hrv ibi = s) ∧
    (∀ s : StrainMonitor, Reachable s → ∀ x ∈ s.hr_window, 0 < x) := by
  constructor
  · intro s t hr hrv ibi h
    unfold StrainMonitor.add_sample
    rw [if_neg (not_lt.2 h)]
  · intro s h
    exact reachable_hr_window_pos h

/-- Witness for C10: a dropped `hr = 0` sample and a positive window. -/
theorem add_sample_nonpositive_hr_dropped_witness :
    (sFrozen.add_sample 5 0 9 9 = sFrozen) ∧
    (∀ x ∈ ((StrainMonitor.init 60 30).add_sample 0 80 40 700).hr_window, 0 < x) :=
  ⟨add_sample_nonpositive_hr_dropped.1 sFrozen 5 0 9 9 (le_refl 0),
   add_sample_nonpositive_hr_dropped.2 _
     (Reachable.step (Op.add 0 80 40 700) (Reachable.init 60 30))⟩

/-! ## Claim theorems: IBI validation and HR -/

theorem mem_rejectJumps {l : List ℚ} {x : ℚ} (h : x ∈ rejectJumps l) : x ∈ l := by
  cases l with
  | nil => simp [rejectJumps] at h
  | cons y t =>
    rw [rejectJumps] at h
    rcases List.mem_cons.1 h with rfl | h2
    · exact List.mem_cons_self _ _
    · rcases List.mem_map.1 h2 with ⟨p, hp, rfl⟩
      have hz : p ∈ t.zip (y :: t) := List.mem_of_mem_filter hp
      exact List.mem_cons_of_mem y (List.of_mem_zip hz).1

theorem mem_rangeValidIbi {ibi : List ℚ} {x : ℚ} (h : x ∈ rangeValidIbi ibi) :
    400 ≤ x ∧ x ≤ 1500 :=
  of_decide_eq_true (List.mem_filter.1 h).2

/-- C4: every interval emitted by `filter_valid_ibi` lies in
`[400, 1500]` ms, and the beat-to-beat jump rejection is applied only
when at least 3 range-valid intervals remain — with fewer, the
range-valid intervals are returned untouched. -/
theorem filter_valid_ibi_range_and_guard :
    (∀ (ibi : List ℚ), ∀ x ∈ filter_valid_ibi ibi, 400 ≤ x ∧ x ≤ 1500) ∧
    (∀ ibi : List ℚ, (rangeValidIbi ibi).length < 3 →
      filter_valid_ibi ibi = rangeValidIbi ibi) := by
  constructor
  · intro ibi x hx
    unfold filter_valid_ibi at hx
    dsimp only at hx
    split at hx
    · exact mem_rangeValidIbi hx
    · exact mem_rangeValidIbi (mem_rejectJumps hx)
  · intro ibi h
    unfold filter_valid_ibi
    dsimp only
    rw [if_pos h]

/-- Witness for C4 at concrete IBI lists. -/
theorem filter_valid_ibi_range_and_guard_witness :
    (400 ≤ (750 : ℚ) ∧ (750 : ℚ) ≤ 1500) ∧
    filter_valid_ibi [750, 2000] = rangeValidIbi [750, 2000] :=
  ⟨filter_valid_ibi_range_and_guard.1 [750, 2000] 750 (by decide),
   filter_valid_ibi_range_and_guard.2 [750, 2000] (by decide)⟩

/-- C5: `compute_hr` returns `60000 / median(valid IBIs)` and 0 when no
valid IBI remains; on an input whose valid intervals have median 750 ms
it returns exactly 80 BPM. -/
theorem compute_hr_median_formula :
    (∀ ibi : List ℚ, filter_valid_ibi ibi = [] → compute_hr ibi = 0) ∧
    (∀ ibi : List ℚ, filter_valid_ibi ibi ≠ [] →
      compute_hr ibi = 60000 / median (filter_valid_ibi ibi)) ∧
    (median (filter_valid_ibi [700, 2000, 800, 750]) = 750 ∧
      compute_hr [700, 2000, 800, 750] = 80) := by
  refine ⟨?_, ?_, by decide, by decide⟩
  · intro ibi h
    unfold compute_hr
    rw [h]
    rfl
  · intro ibi h
    unfold compute_hr
    dsimp only
    rw [if_neg]
    simpa [Nat.lt_one_iff, List.length_eq_zero] using h

/-- Witness for C5 at concrete IBI lists. -/
theorem compute_hr_median_formula_witness :
    compute_hr [2000] = 0 ∧
    compute_hr [700, 2000, 800, 750] = 60000 / median (filter_valid_ibi [700, 2000, 800, 750]) :=
  ⟨compute_hr_median_formula.1 [2000] (by decide),
   compute_hr_median_formula.2.1 [700, 2000, 800, 750] (by decide)⟩

/-! ## Claim theorems: short inputs and the band-pass padlen slip (C7) -/

/-- C7: short-input behaviour of the pipeline stages. `mask_artifacts`
returns an all-true mask below 10 samples, `detect_peaks` an empty peak
set below 10 samples, and `process_ppg_pipeline` the all-zero snapshot
below 30 samples, as the claim states; but `bandpass_filter` raises for
signals of length ≤ 1 (the `padlen` clamp floors at 1, violating
`filtfilt`'s `len(x) > padlen` requirement the adjacent comment itself
states), while every length ≥ 2 is handled gracefully. -/
theorem short_input_stage_behavior :
    (∀ sig : List ℚ, sig.length < 10 → mask_artifacts sig = List.replicate sig.length true) ∧
    (∀ (sig : List ℚ) (fs : ℚ), sig.length < 10 → detect_peaks sig fs = []) ∧
    (∀ (filt : List ℚ → List ℚ) (sig : List ℚ) (fs : ℚ), sig.length < 30 →
      process_ppg_pipeline filt sig fs = zeroSnapshot sig.length) ∧
    (∀ filt : List ℚ → List ℚ, bandpass_filter filt [(5 : ℚ)] = none) ∧
    (∀ (filt : List ℚ → List ℚ) (sig : List ℚ), 2 ≤ sig.length →
      (bandpass_filter filt sig).isSome = true) := by
  refine ⟨?_, ?_, ?_, ?_, ?_⟩
  · intro sig h
    unfold mask_artifacts
    rw [if_pos h]
  · intro sig fs h
    unfold detect_peaks
    rw [if_pos h]
  · intro filt sig fs h
    unfold process_ppg_pipeline
    rw [if_pos h]
  · intro filt
    rfl
  · intro filt sig h
    unfold bandpass_filter
    rw [if_neg (by unfold bandpassPadlen; omega)]
    rfl

/-- Witness for C7 at concrete short inputs. -/
theorem short_input_stage_behavior_witness :
    mask_artifacts [1, 2, 3] = List.replicate 3 true ∧
    detect_peaks [1, 2, 3] 100 = [] ∧
    process_ppg_pipeline (fun l => l) [1, 2, 3] 100 = zeroSnapshot 3 ∧
    bandpass_filter (fun l => l) [(5 : ℚ)] = none ∧
    (bandpass_filter (fun l => l) [1, 2]).isSome = true :=
  ⟨short_input_stage_behavior.1 [1, 2, 3] (by decide),
   short_input_stage_behavior.2.1 [1, 2, 3] 100 (by decide),
   short_input_stage_behavior.2.2.1 (fun l => l) [1, 2, 3] 100 (by decide),
   short_input_stage_behavior.2.2.2.1 (fun l => l),
   short_input_stage_behavior.2.2.2.2 (fun l => l) [1, 2] (by decide)⟩

/-! ## Claim theorems: peak detection spacing (C6) -/

theorem scanAhead_le (x : List ℚ) (iMax : ℕ) (v : ℚ) :
    ∀ (fuel j : ℕ), j ≤ scanAhead x iMax v fuel j := by
  intro fuel
  induction fuel with
  | zero => intro j; rw [scanAhead]
  | succ f ih =>
    intro j
    rw [scanAhead]
    split
    · exact le_trans (Nat.le_succ j) (ih (j + 1))
    · exact le_refl j

theorem localMaxGo_ge (x : List ℚ) (iMax : ℕ) :
    ∀ (fuel i : ℕ), ∀ m ∈ localMaxGo x iMax fuel i, i ≤ m := by
  intro fuel
  induction fuel with
  | zero => intro i m hm; rw [localMaxGo] at hm; exact absurd hm (List.not_mem_nil m)
  | succ f ih =>
    intro i m hm
    rw [localMaxGo] at hm
    split at hm
    · split at hm
      · generalize hA : scanAhead x iMax (x.getD i 0) x.length (i + 1) = iA at hm
        have hge : i + 1 ≤ iA := hA ▸ scanAhead_le x iMax (x.getD i 0) x.length (i + 1)
        split at hm
        · rcases List.mem_cons.1 hm with rfl | h2
          · refine (Nat.le_div_iff_mul_le (by norm_num)).2 ?_
            omega
          · have := ih (iA + 1) m h2
            omega
        · have := ih (i + 1) m hm
          omega
      · have := ih (i + 1) m hm
        omega
    · exact absurd hm (List.not_mem_nil m)

theorem localMaxGo_pairwise (x : List ℚ) (iMax : ℕ) :
    ∀ (fuel i : ℕ), (localMaxGo x iMax fuel i).Pairwise (· < ·) := by
  intro fuel
  induction fuel with
  | zero => intro i; rw [localMaxGo]; exact List.Pairwise.nil
  | succ f ih =>
    intro i
    rw [localMaxGo]
    split
    · split
      · generalize hA : scanAhead x iMax (x.getD i 0) x.length (i + 1) = iA
        have hge : i + 1 ≤ iA := hA ▸ scanAhead_le x iMax (x.getD i 0) x.length (i + 1)
        split
        · refine List.Pairwise.cons ?_ (ih (iA + 1))
          intro b hb
          have hb2 := localMaxGo_ge x iMax f (iA + 1) b hb
          omega
        · exact ih (i + 1)
      · exact ih (i + 1)
    · exact List.Pairwise.nil

theorem localMaxima_pairwise (x : List ℚ) : (localMaxima x).Pairwise (· < ·) :=
  localMaxGo_pairwise x (x.length - 1) x.length 1

theorem sdGo_sublist (dist : ℕ) :
    ∀ (order keep : List ℕ), List.Sublist (sdGo dist order keep) keep := by
  intro order
  induction order with
  | nil => intro keep; rw [sdGo]
  | cons p rest ih =>
    intro keep
    rw [sdGo]
    split
    · exact (ih _).trans (List.filter_sublist keep)
    · exact ih keep

theorem sdGo_spacing (dist : ℕ) :
    ∀ (order keep : List ℕ), ∀ a ∈ sdGo dist order keep, ∀ b ∈ sdGo dist order keep,
      a ∈ order → a ≠ b → dist ≤ ((a : ℤ) - (b : ℤ)).natAbs := by
  intro order
  induction order with
  | nil =>
    intro keep a ha b hb haord
    exact absurd haord (List.not_mem_nil a)
  | cons p rest ih =>
    intro keep a ha b hb haord hne
    rw [sdGo] at ha hb
    by_cases hp : p ∈ keep
    · rw [if_pos hp] at ha hb
      rcases List.mem_cons.1 haord with rfl | har
      · have hbk := (sdGo_sublist dist rest _).subset hb
        have hpred := of_decide_eq_true (List.mem_filter.1 hbk).2
        rcases hpred with h1 | h1
        · exact absurd h1.symm hne
        · omega
      · exact ih _ a ha b hb har hne
    · rw [if_neg hp] at ha hb
      rcases List.mem_cons.1 haord with rfl | har
      · exact absurd ((sdGo_sublist dist rest keep).subset ha) hp
      · exact ih keep a ha b hb har hne

theorem mem_insertSorted {α : Type} (le : α → α → Bool) (x a : α) :
    ∀ l : List α, (a ∈ insertSorted le x l ↔ a = x ∨ a ∈ l) := by
  intro l
  induction l with
  | nil => simp [insertSorted]
  | cons y t ih =>
    rw [insertSorted]
    split
    · simp [List.mem_cons]
    · rw [List.mem_cons, ih, List.mem_cons]
      tauto

theorem mem_sortBy {α : Type} (le : α → α → Bool) (a : α) :
    ∀ l : List α, (a ∈ sortBy le l ↔ a ∈ l) := by
  intro l
  induction l with
  | nil => simp [sortBy]
  | cons y t ih =>
    show a ∈ insertSorted le y (sortBy le t) ↔ _
    rw [mem_insertSorted, List.mem_cons]
    rw [show (a ∈ sortBy le t) = (a ∈ t) from propext (ih)]

/-- Output of `find_peaks` is strictly increasing with all pairs at
least `dist` apart. -/
theorem find_peaks_sorted_spaced (x : List ℚ) (dist : ℕ) (promMin heightMin : ℚ) :
    (find_peaks x dist promMin heightMin).Pairwise
      (fun a b => a < b ∧ dist ≤ b - a) := by
  unfold find_peaks selectByDistance
  dsimp only
  set peaks1 := (localMaxima x).filter (fun p => decide (heightMin ≤ x.getD p 0)) with hp1
  set order := sortBy (fun a b =>
    decide (x.getD a 0 < x.getD b 0 ∨ (x.getD a 0 = x.getD b 0 ∧ a ≤ b))) peaks1 with hord
  set peaks2 := sdGo dist order.reverse peaks1 with hp2
  have h1 : peaks1.Pairwise (· < ·) := (localMaxima_pairwise x).filter _
  have h2 : List.Sublist peaks2 peaks1 := sdGo_sublist dist order.reverse peaks1
  have hPW2 : peaks2.Pairwise (· < ·) := h1.sublist h2
  have hspace : ∀ a ∈ peaks2, ∀ b ∈ peaks2, a ≠ b → dist ≤ ((a : ℤ) - (b : ℤ)).natAbs := by
    intro a ha b hb hne
    refine sdGo_spacing dist order.reverse peaks1 a ha b hb ?_ hne
    rw [List.mem_reverse, hord, mem_sortBy]
    exact h2.subset ha
  have hF : List.Sublist (peaks2.filter (fun p => decide (promMin ≤ prominence x p))) peaks2 :=
    List.filter_sublist peaks2
  have hPWF := hPW2.sublist hF
  refine hPWF.imp_of_mem ?_
  intro a b ha hb hlt
  refine ⟨hlt, ?_⟩
  have := hspace a (hF.subset ha) b (hF.subset hb) (Nat.ne_of_lt hlt)
  omega

/-- C6 (amended): for every signal and every `fs > 0` the peak list of
`detect_peaks` is strictly increasing and consecutive peaks are at least
`max(1, ⌊0.4·fs⌋)` samples apart — equal to `0.4·fs` whenever `0.4·fs`
is a positive integer (such as at the default `fs = 100`), but the
truncated spacing `⌊0.4·fs⌋ < 0.4·fs` is attainable for non-integer
`0.4·fs`, refuting the claim as stated. -/
theorem detect_peaks_strictly_increasing_spaced (sig : List ℚ) (fs : ℚ) (hfs : 0 < fs) :
    List.Chain' (fun a b => a < b ∧ minDistOf fs ≤ b - a) (detect_peaks sig fs) := by
  clear hfs
  unfold detect_peaks
  split
  · exact List.chain'_nil
  · dsimp only
    split
    · exact List.chain'_nil
    · exact (find_peaks_sorted_spaced sig (minDistOf fs) _ _).chain'

/-- Witness for C6 at a concrete signal and `fs = 11`. -/
theorem detect_peaks_strictly_increasing_spaced_witness :
    (0 : ℚ) < 11 ∧
    List.Chain' (fun a b => a < b ∧ minDistOf 11 ≤ b - a)
      (detect_peaks [0, 10, 0, 0, 0, 11, 0, 0, 0, 12, 0] 11) :=
  ⟨by norm_num, by exact detect_peaks_strictly_increasing_spaced _ _ (by norm_num)⟩

/-- Counterexample to C6 as stated: at `fs = 11` (so `0.4·fs = 4.4`) the
signal below yields peaks `[1, 5, 9]` whose consecutive spacing is 4
samples, strictly less than `0.4·fs`. -/
theorem detect_peaks_spacing_counterexample :
    detect_peaks [0, 10, 0, 0, 0, 11, 0, 0, 0, 12, 0] 11 = [1, 5, 9] ∧
    ((5 : ℚ) - 1 < (2 / 5) * 11) :=
  ⟨by decide, by norm_num⟩

/-! ## Claim theorems: artifact mask and best-segment round trip (C8) -/

theorem getD_mem {α : Type} (l : List α) (i : ℕ) (d : α) (h : i < l.length) :
    l.getD i d ∈ l := by
  rw [List.getD_eq_getElem?_getD, List.getElem?_eq_getElem h]
  exact List.getElem_mem h

theorem foldl_no_flat (sig : List ℚ) (win : ℕ) :
    ∀ (l : List ℕ) (m : List Bool),
      (∀ i ∈ l, flatThresh sig ≤ ptp ((sig.drop i).take win)) →
      l.foldl (fun m i =>
        if ptp ((sig.drop i).take win) < flatThresh sig then maskRange m i (i + win) else m)
        m = m := by
  intro l
  induction l with
  | nil => intro m _; rfl
  | cons a t ih =>
    intro m hp
    rw [List.foldl_cons, if_neg (not_lt.2 (hp a (List.mem_cons_self a t)))]
    exact ih m (fun i hi => hp i (List.mem_cons_of_mem a hi))

theorem zipDiffAux (m : ℕ) :
    ((List.replicate m (1 : ℤ) ++ [0]).zip ((1 : ℤ) :: (List.replicate m 1 ++ [0]))).map
      (fun p : ℤ × ℤ => p.1 - p.2) = List.replicate m 0 ++ [-1] := by
  induction m with
  | zero => rfl
  | succ k ih =>
    rw [List.replicate_succ, List.cons_append, List.zip_cons_cons, List.map_cons, ih,
      List.replicate_succ (0 : ℤ), List.cons_append]
    norm_num

theorem diffs_all_true (m : ℕ) :
    ((List.replicate (m + 1) (1 : ℤ) ++ [0]).zip
        ((0 : ℤ) :: (List.replicate (m + 1) 1 ++ [0]))).map (fun p : ℤ × ℤ => p.1 - p.2) =
      1 :: (List.replicate m 0 ++ [-1]) := by
  rw [List.replicate_succ, List.cons_append, List.zip_cons_cons, List.map_cons, zipDiffAux]
  norm_num

theorem diffsD_succ (m j : ℕ) (hj : j < m + 1) :
    ((1 : ℤ) :: (List.replicate m (0 : ℤ) ++ [-1])).getD (j + 1) 0 =
      if j = m then -1 else 0 := by
  rw [List.getD_cons_succ]
  by_cases h : j < m
  · rw [if_neg (by omega), List.getD_eq_getElem?_getD,
      List.getElem?_append_left (by simpa using h)]
    simp [List.getElem?_replicate, h]
  · have hjm : j = m := by omega
    subst hjm
    rw [if_pos rfl, List.getD_eq_getElem?_getD,
      List.getElem?_append_right (by simp)]
    simp

theorem filter_range_eq_singleton (N : ℕ) (p : ℕ → Bool) (j : ℕ) (hj : j < N)
    (hpj : p j = true) (hothers : ∀ i, i < N → i ≠ j → p i = false) :
    (List.range N).filter p = [j] := by
  induction N with
  | zero => omega
  | succ k ih =>
    rw [List.range_succ, List.filter_append]
    by_cases h : j = k
    · subst h
      have h1 : (List.range j).filter p = [] := by
        rw [List.filter_eq_nil_iff]
        intro a ha
        have hmem := List.mem_range.1 ha
        simp [hothers a (by omega) (by omega)]
      rw [h1]
      simp [List.filter_cons, hpj]
    · have hjk : j < k := by omega
      rw [ih hjk (fun i hi hne => hothers i (by omega) hne)]
      have h2 : p k = false := hothers k (by omega) (by omega)
      simp [List.filter_cons, h2]

theorem extract_all_true (sig : List ℚ) (min_len : ℕ) (hlen : min_len ≤ sig.length) :
    extract_best_segment sig (List.replicate sig.length true) min_len = (sig, 0) := by
  rcases Nat.eq_zero_or_pos sig.length with h0 | hpos
  · have hsig : sig = [] := List.length_eq_zero.1 h0
    have hml : min_len = 0 := by omega
    subst hsig hml
    rfl
  · obtain ⟨m, hm⟩ : ∃ m, sig.length = m + 1 := ⟨sig.length - 1, by omega⟩
    unfold extract_best_segment
    rw [if_neg (by
      rw [List.count_replicate_self]
      omega)]
    dsimp only
    rw [List.map_replicate]
    simp only [List.cons_append, List.tail_cons, eq_self_iff_true, if_true]
    have hdiffs : ((List.replicate sig.length (1 : ℤ) ++ [0]).zip
          ((0 : ℤ) :: (List.replicate sig.length (1 : ℤ) ++ [0]))).map
          (fun p : ℤ × ℤ => p.1 - p.2) = 1 :: (List.replicate m 0 ++ [-1]) := by
      rw [hm]
      exact diffs_all_true m
    rw [hdiffs]
    have hlength : ((1 : ℤ) :: (List.replicate m (0 : ℤ) ++ [-1])).length = m + 2 := by
      simp
    rw [hlength]
    have hstarts : (List.range (m + 2)).filter
        (fun i => decide (((1 : ℤ) :: (List.replicate m (0 : ℤ) ++ [-1])).getD i 0 = 1)) = [0] := by
      refine filter_range_eq_singleton (m + 2) _ 0 (by omega) (by simp) ?_
      intro i hi hne
      obtain ⟨j, rfl⟩ : ∃ j, i = j + 1 := ⟨i - 1, by omega⟩
      rw [decide_eq_false_iff_not, diffsD_succ m j (by omega)]
      split <;> norm_num
    have hends : (List.range (m + 2)).filter
        (fun i => decide (((1 : ℤ) :: (List.replicate m (0 : ℤ) ++ [-1])).getD i 0 = -1)) =
        [m + 1] := by
      refine filter_range_eq_singleton (m + 2) _ (m + 1) (by omega) ?_ ?_
      · rw [decide_eq_true_eq, diffsD_succ m m (by omega)]
        simp
      · intro i hi hne
        rw [decide_eq_false_iff_not]
        rcases Nat.eq_zero_or_pos i with rfl | hip
        · norm_num
        · obtain ⟨j, rfl⟩ : ∃ j, i = j + 1 := ⟨i - 1, by omega⟩
          rw [diffsD_succ m j (by omega), if_neg (by omega)]
          norm_num
    rw [hstarts, hends]
    rw [show ([(0 : ℕ)].zip [m + 1]) = [(0, m + 1)] from rfl]
    rw [List.foldl_cons, List.foldl_nil]
    dsimp only
    have hinner : (min_len : ℤ) ≤ ((m + 1 : ℕ) : ℤ) - ((0 : ℕ) : ℤ) ∧
        ((0 : ℕ) : ℤ) - ((0 : ℕ) : ℤ) < ((m + 1 : ℕ) : ℤ) - ((0 : ℕ) : ℤ) := by
      constructor <;> (push_cast; omega)
    rw [if_pos hinner]
    dsimp only
    rw [if_pos (show (min_len : ℤ) ≤ ((m + 1 : ℕ) : ℤ) - ((0 : ℕ) : ℤ) by push_cast; omega)]
    rw [List.drop_zero, Nat.sub_zero, ← hm, List.take_length]

/-- C8: if no artifact check triggers — every absolute difference is at
or below the gradient threshold, every flatness window has peak-to-peak
range at or above the flatness threshold, and the median is at least
10000 — and the buffer is at least `min_len` long, then `mask_artifacts`
returns the all-true mask and `extract_best_segment` on that mask
returns the original buffer with start index 0. -/
theorem mask_extract_round_trip (sig : List ℚ) (min_len : ℕ)
    (hgrad : ∀ g ∈ gradOf sig, g ≤ gradThresh sig)
    (hflat : 10 ≤ flatWin sig.length →
      ∀ i ∈ flatPositions sig, flatThresh sig ≤ ptp ((sig.drop i).take (flatWin sig.length)))
    (hmed : 10000 ≤ median sig)
    (hlen : min_len ≤ sig.length) :
    mask_artifacts sig = List.replicate sig.length true ∧
    extract_best_segment sig (List.replicate sig.length true) min_len = (sig, 0) := by
  refine ⟨?_, extract_all_true sig min_len hlen⟩
  unfold mask_artifacts
  by_cases h10 : sig.length < 10
  · rw [if_pos h10]
  · rw [if_neg h10]
    dsimp only
    rw [if_neg (not_lt.2 hmed)]
    have hbad : (List.range (gradOf sig).length).filter
        (fun i => decide (gradThresh sig < (gradOf sig).getD i 0)) = [] := by
      rw [List.filter_eq_nil_iff]
      intro i hi
      simp only [decide_eq_true_eq]
      exact not_lt.2 (hgrad _ (getD_mem _ i 0 (List.mem_range.1 hi)))
    rw [hbad, List.foldl_nil]
    split
    · next hwin =>
        exact foldl_no_flat sig (flatWin sig.length) (flatPositions sig)
          (List.replicate sig.length true) (hflat hwin)
    · rfl

/-- Concrete buffer for the C8 witness: a steady ramp well above the
low-signal floor with gentle gradients and no flat window. -/
def sigRamp : List ℚ :=
  [20000, 20600, 21200, 21800, 22400, 23000, 23600, 24200, 24800, 25400]

/-- Witness for C8 at the ramp buffer with `min_len = 10`. -/
theorem mask_extract_round_trip_witness :
    (10 ≤ sigRamp.length ∧ 10000 ≤ median sigRamp) ∧
    mask_artifacts sigRamp = List.replicate sigRamp.length true ∧
    extract_best_segment sigRamp (List.replicate sigRamp.length true) 10 = (sigRamp, 0) :=
  ⟨⟨by decide, by decide⟩,
   by exact mask_extract_round_trip _ 10 (by decide)
        (fun h => absurd h (by decide)) (by decide) (by decide)⟩

end PulseGuard
